import Mathlib

/-!
Verification development for the saleor payment interface module
(saleor/payment/interface.py) and the transaction-ledger / dispatcher /
reconciliation design specified around it.

The Python module defines only data shapes (dataclasses). Those are
embedded below with their source field names, Decimal mapped to the
rationals, Optional mapped to Option, and str mapped to String. The
behavioral components (Transaction Ledger, Reconciliation Engine,
Refund Calculator, Action Dispatcher) are not part of the module; they
are modelled from the specification text, as marked on each definition.
-/

namespace Saleor

/-- Modelled from the spec: kinds of `TransactionEvent` recorded in the
ledger, a closed tagged variant per §3 and the design notes. -/
inductive EventType where
  | authorization
  | charge
  | refund
  | cancel
  | failure
deriving DecidableEq, Repr

/-- Modelled from the spec: a `TransactionEvent` — type, amount, optional
external reference, optional message, timestamp (§3). The actor field is
omitted because no claim mentions it. -/
structure TxEvent where
  type : EventType
  amount : ℚ
  psp_reference : Option String
  message : Option String
  timestamp : ℕ
deriving DecidableEq, Repr

/-- Running totals of a transaction: authorized, charged, refunded and
cancelled amounts (§3). -/
@[ext]
structure Totals where
  authorized : ℚ
  charged : ℚ
  refunded : ℚ
  cancelled : ℚ
deriving DecidableEq, Repr

def Totals.zero : Totals := ⟨0, 0, 0, 0⟩

/-- Modelled from the spec: how one event contributes to the running
totals when the ledger folds events (§4.1, §9 closed-variant note).
Failure events carry no amount effect. -/
def applyEvent (t : Totals) (e : TxEvent) : Totals :=
  match e.type with
  | EventType.authorization => { t with authorized := t.authorized + e.amount }
  | EventType.charge => { t with charged := t.charged + e.amount }
  | EventType.refund => { t with refunded := t.refunded + e.amount }
  | EventType.cancel => { t with cancelled := t.cancelled + e.amount }
  | EventType.failure => t

/-- Fold a list of events into totals, starting from zero (§4.1). -/
def foldEvents (es : List TxEvent) : Totals :=
  es.foldl applyEvent Totals.zero

/-- The amount invariants of §3: charged + refunded + cancelled never
exceed authorized, and refunded never exceeds charged. -/
def invariantHolds (t : Totals) : Prop :=
  t.charged + t.refunded + t.cancelled ≤ t.authorized ∧ t.refunded ≤ t.charged

instance (t : Totals) : Decidable (invariantHolds t) :=
  inferInstanceAs (Decidable (_ ∧ _))

/-- Modelled from the spec: a Transaction with identity, nullable psp
reference, currency, running totals and its event list (§3). -/
structure Transaction where
  id : ℕ
  psp_reference : Option String
  currency : String
  totals : Totals
  events : List TxEvent
deriving DecidableEq, Repr

inductive LedgerError where
  | InvariantViolation
deriving DecidableEq, Repr

/-- Modelled from the spec: `append(transaction_id, event)` of the
Transaction Ledger (§4.1) — fails with InvariantViolation when the
resulting totals would break the §3 amount bounds, otherwise appends the
event and updates the aggregate view. -/
def Ledger.append (tx : Transaction) (e : TxEvent) : Except LedgerError Transaction :=
  let t := applyEvent tx.totals e
  if invariantHolds t then
    Except.ok { tx with totals := t, events := tx.events ++ [e] }
  else
    Except.error LedgerError.InvariantViolation

/-- One append attempt in a sequence: a failing append leaves the prior
transaction state unchanged (§4.1, §8 first property). -/
def Ledger.step (tx : Transaction) (e : TxEvent) : Transaction :=
  match Ledger.append tx e with
  | Except.ok tx2 => tx2
  | Except.error _ => tx

/-- Append a whole sequence of events, each failing append leaving the
state unchanged. -/
def Ledger.appendAll (tx : Transaction) (es : List TxEvent) : Transaction :=
  es.foldl Ledger.step tx

/-- Comparison used to fold events in timestamp order; the sort is
stable, so ties are broken by append order (§4.1). -/
def eventLe (a b : TxEvent) : Bool := a.timestamp ≤ b.timestamp

/-- Modelled from the spec: `currentState` is the fold of all events in
timestamp order, ties broken by append order (§4.1). -/
def currentState (tx : Transaction) : Totals :=
  foldEvents (tx.events.mergeSort eventLe)

theorem applyEvent_comm (t : Totals) (a b : TxEvent) :
    applyEvent (applyEvent t a) b = applyEvent (applyEvent t b) a := by
  obtain ⟨au, ch, re, ca⟩ := t
  cases ha : a.type <;> cases hb : b.type <;>
    simp only [applyEvent, ha, hb] <;> ext <;> simp <;> ring

theorem foldEvents_perm {l1 l2 : List TxEvent} (p : l1.Perm l2) :
    foldEvents l1 = foldEvents l2 :=
  p.foldl_eq' (fun x _ y _ z => applyEvent_comm z x y) Totals.zero

theorem currentState_eq_foldEvents (tx : Transaction) :
    currentState tx = foldEvents tx.events :=
  foldEvents_perm (List.mergeSort_perm tx.events eventLe)

theorem step_invariant (tx : Transaction) (e : TxEvent)
    (h : invariantHolds tx.totals) : invariantHolds (Ledger.step tx e).totals := by
  by_cases hc : invariantHolds (applyEvent tx.totals e)
  · simp [Ledger.step, Ledger.append, hc]
  · simpa [Ledger.step, Ledger.append, hc]

theorem appendAll_invariant (tx : Transaction) (es : List TxEvent)
    (h : invariantHolds tx.totals) : invariantHolds (Ledger.appendAll tx es).totals := by
  induction es generalizing tx with
  | nil => simpa [Ledger.appendAll]
  | cons e es ih =>
    simpa [Ledger.appendAll, List.foldl_cons] using
      ih (Ledger.step tx e) (step_invariant tx e h)

/-- Modelled from the spec: the action variants a dispatch can carry
(§3 Action request). -/
inductive ActionType where
  | charge
  | refund
  | cancel
deriving DecidableEq, Repr

/-- Modelled from the spec: mapping a successful gateway result onto the
event type recorded in the ledger (§4.3 second rule). -/
def ActionType.successEvent : ActionType → EventType
  | ActionType.charge => EventType.charge
  | ActionType.refund => EventType.refund
  | ActionType.cancel => EventType.cancel

/-- Modelled from the spec: a gateway result delivered to `reconcile`,
either synchronously or asynchronously (§3 Session / async result). -/
structure ReconResult where
  success : Bool
  amount : ℚ
  psp_reference : Option String
  message : Option String
  timestamp : ℕ
deriving DecidableEq, Repr

/-- Modelled from the spec: a registered action id awaiting confirmation,
remembering its target transaction and action type (§4.2 step 3). -/
structure PendingAction where
  action_id : ℕ
  tx_id : ℕ
  action_type : ActionType
deriving DecidableEq, Repr

/-- Modelled from the spec: a recorded ReferenceConflict anomaly — the
transaction, its existing reference and the conflicting incoming one
(§4.3 last rule, §7). -/
structure Anomaly where
  tx_id : ℕ
  existing : String
  incoming : String
deriving DecidableEq, Repr

/-- Modelled from the spec: the state the Reconciliation Engine acts on —
the transactions, the pending action registrations, the retired action
ids and the recorded anomaly events (§4.3). -/
structure ReconState where
  transactions : ℕ → Transaction
  pending : List PendingAction
  retired : List ℕ
  anomalies : List Anomaly

def ReconState.findPending (s : ReconState) (aid : ℕ) : Option PendingAction :=
  s.pending.find? (fun pa => pa.action_id == aid)

/-- Modelled from the spec: translating a result into a TransactionEvent —
success maps to the action kind, error maps to a failure event (§4.3). -/
def toEvent (pa : PendingAction) (r : ReconResult) : TxEvent :=
  { type := if r.success then pa.action_type.successEvent else EventType.failure
  , amount := r.amount
  , psp_reference := r.psp_reference
  , message := r.message
  , timestamp := r.timestamp }

/-- Modelled from the spec: psp-reference handling during reconciliation —
adopt when the transaction has none, keep the existing one and record a
ReferenceConflict anomaly when a different one arrives (§4.3 last rule). -/
def adoptReference (tx : Transaction) (ref : Option String) :
    Transaction × List Anomaly :=
  match ref with
  | none => (tx, [])
  | some rf =>
    match tx.psp_reference with
    | none => ({ tx with psp_reference := some rf }, [])
    | some old =>
      if old = rf then (tx, [])
      else (tx, [⟨tx.id, old, rf⟩])

/-- Modelled from the spec: `reconcile(action_id, result)` (§4.3). An
unknown or already retired action id is a duplicate replay, logged and
discarded without mutating anything; a pending one is translated into an
event and appended through the Ledger, the action id is retired, and the
psp reference is adopted or flagged per the reference rule. Only an
InvariantViolation from the Ledger append is surfaced. -/
def reconcile (s : ReconState) (aid : ℕ) (r : ReconResult) :
    Except LedgerError ReconState :=
  match s.findPending aid with
  | none => Except.ok s
  | some pa =>
    let tx := s.transactions pa.tx_id
    let adopted := adoptReference tx r.psp_reference
    match Ledger.append adopted.1 (toEvent pa r) with
    | Except.error e => Except.error e
    | Except.ok tx2 =>
      Except.ok
        { transactions := fun i => if i = pa.tx_id then tx2 else s.transactions i
        , pending := s.pending.filter (fun q => q.action_id != aid)
        , retired := aid :: s.retired
        , anomalies := s.anomalies ++ adopted.2 }

theorem adoptReference_events (tx : Transaction) (ref : Option String) :
    (adoptReference tx ref).1.events = tx.events := by
  obtain ⟨i, pr, c, t, ev⟩ := tx
  cases ref with
  | none => rfl
  | some rf =>
    cases pr with
    | none => rfl
    | some old =>
      by_cases he : old = rf <;> simp [adoptReference, he]

theorem findPending_after_reconcile (s : ReconState) (aid : ℕ)
    (pa : PendingAction) (tx2 : Transaction) (retired2 : List ℕ)
    (anoms2 : List Anomaly) :
    ReconState.findPending
      { transactions := fun i => if i = pa.tx_id then tx2 else s.transactions i
      , pending := s.pending.filter (fun q => q.action_id != aid)
      , retired := retired2
      , anomalies := anoms2 } aid = none := by
  simp only [ReconState.findPending, List.find?_eq_none]
  intro x hx
  have := List.of_mem_filter hx
  simpa using this

/-- Modelled from the spec: the refund-relevant shape of an OrderLineInfo
or FulfillmentLineData entry — both types are imported by the source
module from the order package, which is not part of it; §4.4 and §6 give
their refund-relevant content as a unit amount and a quantity to refund. -/
structure RefundLine where
  unit_amount : ℚ
  quantity_to_refund : ℕ
deriving DecidableEq, Repr

/-- RefundData from saleor/payment/interface.py: order lines and
fulfillment lines to refund, whether shipping costs are refunded, and
whether the refund amount is auto-computed from the lines. Defaults
match the dataclass defaults. -/
structure RefundData where
  order_lines_to_refund : List RefundLine := []
  fulfillment_lines_to_refund : List RefundLine := []
  refund_shipping_costs : Bool := false
  refund_amount_is_automatically_calculated : Bool := true
deriving DecidableEq, Repr

/-- A default-constructed RefundData, all fields at their dataclass
defaults. -/
def RefundData.defaultValue : RefundData := {}

/-- Modelled from the spec: the authoritative line data handed to the
Refund Calculator — shipping cost and the charged / already-refunded
totals of the transaction (§4.4, §6). -/
structure AuthoritativeLineData where
  shipping_cost : ℚ
  charged : ℚ
  refunded : ℚ
deriving DecidableEq, Repr

inductive RefundError where
  | NothingToRefund
deriving DecidableEq, Repr

def lineTotal (l : RefundLine) : ℚ :=
  l.unit_amount * (l.quantity_to_refund : ℚ)

/-- Modelled from the spec: the sum over all order lines and fulfillment
lines marked for refund of unit amount times quantity to refund, plus the
shipping cost when refund_shipping_costs is set (§4.4). -/
def refundLineSum (rd : RefundData) (ld : AuthoritativeLineData) : ℚ :=
  (rd.order_lines_to_refund.map lineTotal).sum +
    (rd.fulfillment_lines_to_refund.map lineTotal).sum +
    (if rd.refund_shipping_costs then ld.shipping_cost else 0)

/-- Modelled from the spec: `computeRefundAmount(refundData, lineData)`
(§4.4) — the line sum capped at the refundable remainder, failing with
NothingToRefund when the computed amount is zero and no explicit
override was supplied (the auto-calculated flag is set). -/
def computeRefundAmount (rd : RefundData) (ld : AuthoritativeLineData) :
    Except RefundError ℚ :=
  let amount := min (refundLineSum rd ld) (ld.charged - ld.refunded)
  if amount = 0 ∧ rd.refund_amount_is_automatically_calculated = true then
    Except.error RefundError.NothingToRefund
  else Except.ok amount

/-- Modelled from the spec: step 2 of the Action Dispatcher (§4.2) — for
refund actions, derive the amount with the Refund Calculator when the
auto-calculated flag is set, otherwise use the supplied amount directly. -/
def resolveRefundAmount (rd : RefundData) (suppliedAmount : ℚ)
    (ld : AuthoritativeLineData) : Except RefundError ℚ :=
  if rd.refund_amount_is_automatically_calculated then computeRefundAmount rd ld
  else Except.ok suppliedAmount

/-- PaymentMethodInfo from saleor/payment/interface.py. -/
structure PaymentMethodInfo where
  first_4 : Option String := none
  last_4 : Option String := none
  exp_year : Option Int := none
  exp_month : Option Int := none
  brand : Option String := none
  name : Option String := none
  type : Option String := none
deriving DecidableEq, Repr

/-- JSON values, embedding the JSONValue union of the source module. -/
inductive JSONValue where
  | str (s : String)
  | num (q : ℚ)
  | bool (b : Bool)
  | null
  | arr (items : List JSONValue)
  | obj (fields : List (String × JSONValue))

/-- GatewayResponse from saleor/payment/interface.py: the synchronous
gateway response shape, field for field. -/
structure GatewayResponse where
  is_success : Bool
  action_required : Bool
  kind : String
  amount : ℚ
  currency : String
  transaction_id : String
  error : Option String
  customer_id : Option String := none
  payment_method_info : Option PaymentMethodInfo := none
  raw_response : Option (List (String × String)) := none
  action_required_data : Option JSONValue := none
  transaction_already_processed : Bool := false
  psp_reference : Option String := none

/-- A gateway response value carrying a success flag together with a
non-null error message; every field combination is constructible, the
dataclass enforces no exclusivity. -/
def conflictedResponse : GatewayResponse :=
  { is_success := true
  , action_required := false
  , kind := "capture"
  , amount := 10
  , currency := "USD"
  , transaction_id := "tx-1"
  , error := some "card declined" }

/-- AddressData from saleor/payment/interface.py; the metadata dicts are
embedded as string association lists. -/
structure AddressData where
  first_name : String
  last_name : String
  company_name : String
  street_address_1 : String
  street_address_2 : String
  city : String
  city_area : String
  postal_code : String
  country : String
  country_area : String
  phone : String
  metadata : Option (List (String × String))
  private_metadata : Option (List (String × String))
deriving DecidableEq, Repr

/-- StorePaymentMethodEnum from saleor/payment/interface.py. -/
inductive StorePaymentMethodEnum where
  | NONE
  | ON_SESSION
  | OFF_SESSION
deriving DecidableEq, Repr

/-- PaymentLineData from saleor/payment/interface.py. -/
structure PaymentLineData where
  amount : ℚ
  variant_id : Int
  product_name : String
  product_sku : Option String
  quantity : Int
deriving DecidableEq, Repr

/-- PaymentLinesData from saleor/payment/interface.py. -/
structure PaymentLinesData where
  shipping_amount : ℚ
  voucher_amount : ℚ
  lines : List PaymentLineData
deriving DecidableEq, Repr

/-- TransactionData from saleor/payment/interface.py. -/
structure TransactionData where
  token : String
  is_success : Bool
  kind : String
  gateway_response : JSONValue
  amount : List (String × String)

/-- PaymentData from saleor/payment/interface.py, field for field. The
InitVar resolver stored by post-init is the function field
resolve_lines_data; the cached_property cell behind the lines_data
property is the lines_data_cache field, empty until the first read. -/
structure PaymentData where
  gateway : String
  amount : ℚ
  currency : String
  billing : Option AddressData
  shipping : Option AddressData
  payment_id : Int
  graphql_payment_id : String
  order_id : Option String
  customer_ip_address : Option String
  customer_email : String
  order_channel_slug : Option String := none
  token : Option String := none
  customer_id : Option String := none
  reuse_source : Bool := false
  data : Option (List (String × String)) := none
  graphql_customer_id : Option String := none
  checkout_token : Option String := none
  checkout_metadata : Option (List (String × String)) := none
  store_payment_method : StorePaymentMethodEnum := StorePaymentMethodEnum.NONE
  payment_metadata : List (String × String) := []
  psp_reference : Option String := none
  refund_data : Option RefundData := none
  transactions : List TransactionData := []
  resolve_lines_data : Unit → PaymentLinesData
  lines_data_cache : Option PaymentLinesData := none

/-- Reading the lines_data cached property: returns the value, the
payment data after the read, and how many times the resolver was invoked
by this read (cached_property semantics: resolve on first access, then
serve the stored value). -/
def PaymentData.lines_data (p : PaymentData) :
    PaymentLinesData × PaymentData × ℕ :=
  match p.lines_data_cache with
  | some v => (v, p, 0)
  | none =>
    let v := p.resolve_lines_data ()
    (v, { p with lines_data_cache := some v }, 1)

theorem append_ok_spec {tx tx2 : Transaction} {e : TxEvent}
    (h : Ledger.append tx e = Except.ok tx2) :
    tx2.events = tx.events ++ [e] ∧ tx2.totals = applyEvent tx.totals e ∧
      invariantHolds tx2.totals ∧ tx2.psp_reference = tx.psp_reference ∧
      tx2.id = tx.id := by
  simp only [Ledger.append] at h
  by_cases hc : invariantHolds (applyEvent tx.totals e)
  · rw [if_pos hc] at h
    injection h with h
    subst h
    exact ⟨rfl, rfl, hc, rfl, rfl⟩
  · rw [if_neg hc] at h
    cases h

theorem append_error_spec {tx : Transaction} {e : TxEvent} {err : LedgerError}
    (h : Ledger.append tx e = Except.error err) :
    err = LedgerError.InvariantViolation ∧
      ¬ invariantHolds (applyEvent tx.totals e) ∧ Ledger.step tx e = tx := by
  refine ⟨by cases err; rfl, ?_, ?_⟩
  · intro hc
    simp only [Ledger.append, if_pos hc] at h
    exact Except.noConfusion h
  · rw [Ledger.step, h]

/-- Concrete transaction used by witnesses: authorized 100, nothing
charged yet, no events. -/
def tx0 : Transaction :=
  { id := 0, psp_reference := none, currency := "USD"
  , totals := ⟨100, 0, 0, 0⟩, events := [] }

/-- A charge event of 30 at timestamp 5. -/
def e0 : TxEvent := ⟨EventType.charge, 30, none, none, 5⟩

/-- A charge event of 200, exceeding the authorized 100 of tx0. -/
def eBad : TxEvent := ⟨EventType.charge, 200, none, none, 6⟩

theorem tx0_invariant : invariantHolds tx0.totals := by
  constructor <;> norm_num [tx0]

theorem eBad_violation : ¬ invariantHolds (applyEvent tx0.totals eBad) := by
  intro h
  have := h.1
  norm_num [tx0, eBad, applyEvent] at this

/-- C1: every successful ledger append yields totals satisfying
charged + refunded + cancelled ≤ authorized and refunded ≤ charged, with
the event appended; an append whose resulting totals would violate the
bounds fails with InvariantViolation and leaves the prior transaction
state unchanged, so the invariants hold after every append in any
sequence of appends. -/
theorem C1_append_preserves_invariants (tx : Transaction) (e : TxEvent) :
    (∀ tx2, Ledger.append tx e = Except.ok tx2 →
      (tx2.totals.charged + tx2.totals.refunded + tx2.totals.cancelled
          ≤ tx2.totals.authorized ∧
        tx2.totals.refunded ≤ tx2.totals.charged) ∧
      tx2.events = tx.events ++ [e]) ∧
    (¬ invariantHolds (applyEvent tx.totals e) →
      Ledger.append tx e = Except.error LedgerError.InvariantViolation ∧
      Ledger.step tx e = tx) ∧
    (∀ es, invariantHolds tx.totals →
      invariantHolds (Ledger.appendAll tx es).totals) := by
  refine ⟨?_, ?_, fun es h => appendAll_invariant tx es h⟩
  · intro tx2 h
    obtain ⟨hev, _, hinv, _, _⟩ := append_ok_spec h
    exact ⟨hinv, hev⟩
  · intro hc
    have herr : Ledger.append tx e = Except.error LedgerError.InvariantViolation := by
      simp only [Ledger.append, if_neg hc]
    exact ⟨herr, by rw [Ledger.step, herr]⟩

/-- Witness for C1 at the concrete transaction tx0: the in-bounds charge
e0 keeps every invariant along the sequence, and the out-of-bounds
charge eBad is rejected with InvariantViolation leaving tx0 unchanged. -/
theorem C1_witness :
    invariantHolds tx0.totals ∧
      invariantHolds (Ledger.appendAll tx0 [e0]).totals ∧
      Ledger.append tx0 eBad = Except.error LedgerError.InvariantViolation ∧
      Ledger.step tx0 eBad = tx0 :=
  ⟨tx0_invariant,
    (C1_append_preserves_invariants tx0 e0).2.2 [e0] tx0_invariant,
    ((C1_append_preserves_invariants tx0 eBad).2.1 eBad_violation).1,
    ((C1_append_preserves_invariants tx0 eBad).2.1 eBad_violation).2⟩

/-- C4: the current state of a transaction is the fold of its events in
timestamp order with ties broken by append order, and the stored
aggregate totals never diverge from that fold: a transaction whose
totals equal the fold keeps that property across every successful
append, and its currentState equals its stored totals. -/
theorem C4_current_state_is_fold (tx : Transaction)
    (h : tx.totals = foldEvents tx.events) :
    currentState tx = tx.totals ∧
    ∀ e tx2, Ledger.append tx e = Except.ok tx2 →
      tx2.totals = foldEvents tx2.events ∧ currentState tx2 = tx2.totals := by
  constructor
  · rw [currentState_eq_foldEvents, h]
  · intro e tx2 happ
    obtain ⟨hev, htot, _, _, _⟩ := append_ok_spec happ
    have h2 : tx2.totals = foldEvents tx2.events := by
      rw [htot, hev, h]
      simp only [foldEvents, List.foldl_append]
      rfl
    exact ⟨h2, by rw [currentState_eq_foldEvents, h2]⟩

/-- An authorization event of 100 at timestamp 1. -/
def evA : TxEvent := ⟨EventType.authorization, 100, none, none, 1⟩

/-- A transaction whose stored totals are exactly the fold of its single
authorization event. -/
def txF : Transaction :=
  { id := 7, psp_reference := none, currency := "USD"
  , totals := ⟨100, 0, 0, 0⟩, events := [evA] }

theorem txF_fold : txF.totals = foldEvents txF.events := by
  simp only [txF, foldEvents, evA, List.foldl_cons, List.foldl_nil,
    applyEvent, Totals.zero]
  ext <;> norm_num

/-- Witness for C4 at the concrete transaction txF. -/
theorem C4_witness :
    txF.totals = foldEvents txF.events ∧ currentState txF = txF.totals :=
  ⟨txF_fold, (C4_current_state_is_fold txF txF_fold).1⟩

/-- The refund data of the spec scenario: one order line of 2 units at
10.00, no fulfillment lines, shipping not refunded, auto-calculated. -/
def rdEx : RefundData :=
  { order_lines_to_refund := [⟨10, 2⟩]
  , fulfillment_lines_to_refund := []
  , refund_shipping_costs := false
  , refund_amount_is_automatically_calculated := true }

theorem rdEx_sum (ld : AuthoritativeLineData) : refundLineSum rdEx ld = 20 := by
  simp only [refundLineSum, rdEx, lineTotal, List.map_cons, List.map_nil,
    List.sum_cons, List.sum_nil, if_false]
  norm_num

/-- C3: computeRefundAmount returns the line sum (order lines plus
fulfillment lines, plus shipping when flagged) capped at the refundable
remainder charged minus already refunded; for one line of 2 units at
10.00 without shipping and a remainder of at least 20.00 it returns
exactly 20.00. -/
theorem C3_compute_refund_amount (rd : RefundData) (ld : AuthoritativeLineData) :
    (∀ q, computeRefundAmount rd ld = Except.ok q →
      q = min (refundLineSum rd ld) (ld.charged - ld.refunded)) ∧
    (20 ≤ ld.charged - ld.refunded →
      computeRefundAmount rdEx ld = Except.ok 20) := by
  constructor
  · intro q hq
    simp only [computeRefundAmount] at hq
    by_cases hc : (min (refundLineSum rd ld) (ld.charged - ld.refunded) = 0 ∧
      rd.refund_amount_is_automatically_calculated = true)
    · rw [if_pos hc] at hq
      exact Except.noConfusion hq
    · rw [if_neg hc] at hq
      injection hq with hq
      exact hq.symm
  · intro h20
    simp only [computeRefundAmount, rdEx_sum, min_eq_left h20]
    rw [if_neg]
    intro hc
    norm_num at hc

/-- The concrete authoritative line data for the C3 witness: shipping
5.00, charged 100.00, nothing refunded yet. -/
def ldEx : AuthoritativeLineData := ⟨5, 100, 0⟩

/-- Witness for C3: at ldEx the remainder is 100, the scenario refund
comes out at exactly 20, and the universal min-formula agrees with that
result. -/
theorem C3_witness :
    (20 : ℚ) ≤ ldEx.charged - ldEx.refunded ∧
      computeRefundAmount rdEx ldEx = Except.ok 20 ∧
      (20 : ℚ) = min (refundLineSum rdEx ldEx) (ldEx.charged - ldEx.refunded) :=
  ⟨by norm_num [ldEx],
    (C3_compute_refund_amount rdEx ldEx).2 (by norm_num [ldEx]),
    (C3_compute_refund_amount rdEx ldEx).1 20
      ((C3_compute_refund_amount rdEx ldEx).2 (by norm_num [ldEx]))⟩

/-- C6: computeRefundAmount fails with NothingToRefund exactly when the
capped amount is zero and the auto-calculated flag is set (no explicit
override); in particular a default-constructed RefundData fails this way
whenever refunded does not exceed charged. -/
theorem C6_nothing_to_refund (rd : RefundData) (ld : AuthoritativeLineData)
    (hld : ld.refunded ≤ ld.charged) :
    (computeRefundAmount rd ld = Except.error RefundError.NothingToRefund ↔
      (min (refundLineSum rd ld) (ld.charged - ld.refunded) = 0 ∧
        rd.refund_amount_is_automatically_calculated = true)) ∧
    computeRefundAmount RefundData.defaultValue ld
      = Except.error RefundError.NothingToRefund := by
  have hiff : ∀ rd2 : RefundData,
      computeRefundAmount rd2 ld = Except.error RefundError.NothingToRefund ↔
      (min (refundLineSum rd2 ld) (ld.charged - ld.refunded) = 0 ∧
        rd2.refund_amount_is_automatically_calculated = true) := by
    intro rd2
    simp only [computeRefundAmount]
    by_cases hc : (min (refundLineSum rd2 ld) (ld.charged - ld.refunded) = 0 ∧
      rd2.refund_amount_is_automatically_calculated = true)
    · rw [if_pos hc]
      exact ⟨fun _ => hc, fun _ => rfl⟩
    · rw [if_neg hc]
      exact ⟨fun h => Except.noConfusion h, fun h => absurd h hc⟩
  refine ⟨hiff rd, (hiff RefundData.defaultValue).mpr ⟨?_, rfl⟩⟩
  have hsum : refundLineSum RefundData.defaultValue ld = 0 := by
    simp [refundLineSum, RefundData.defaultValue]
  rw [hsum, min_eq_left (sub_nonneg.mpr hld)]

/-- Concrete line data with a positive refundable remainder for the C6
witness: charged 50.00, already refunded 20.00. -/
def ldEx2 : AuthoritativeLineData := ⟨3, 50, 20⟩

/-- Witness for C6: the default RefundData has nothing to refund against
ldEx2. -/
theorem C6_witness :
    ldEx2.refunded ≤ ldEx2.charged ∧
      computeRefundAmount RefundData.defaultValue ldEx2
        = Except.error RefundError.NothingToRefund :=
  ⟨by norm_num [ldEx2],
    (C6_nothing_to_refund RefundData.defaultValue ldEx2 (by norm_num [ldEx2])).2⟩

/-- C7: for refund actions, the dispatched amount comes from the Refund
Calculator when refund_amount_is_automatically_calculated is set — and
is then independent of the caller-supplied amount — and is exactly the
caller-supplied amount, independent of the line data, when the flag is
cleared. -/
theorem C7_refund_amount_source (rd : RefundData) (amt : ℚ)
    (ld : AuthoritativeLineData) :
    (rd.refund_amount_is_automatically_calculated = true →
      resolveRefundAmount rd amt ld = computeRefundAmount rd ld ∧
      ∀ amt2, resolveRefundAmount rd amt2 ld = resolveRefundAmount rd amt ld) ∧
    (rd.refund_amount_is_automatically_calculated = false →
      resolveRefundAmount rd amt ld = Except.ok amt ∧
      ∀ ld2, resolveRefundAmount rd amt ld2 = Except.ok amt) := by
  constructor
  · intro hf
    constructor
    · simp [resolveRefundAmount, hf]
    · intro amt2
      simp [resolveRefundAmount, hf]
  · intro hf
    constructor
    · simp [resolveRefundAmount, hf]
    · intro ld2
      simp [resolveRefundAmount, hf]

/-- RefundData with an explicitly supplied amount: the auto-calculated
flag is cleared. -/
def rdManual : RefundData :=
  { order_lines_to_refund := [⟨10, 2⟩]
  , fulfillment_lines_to_refund := []
  , refund_shipping_costs := false
  , refund_amount_is_automatically_calculated := false }

/-- Witness for C7 at concrete refund data: the auto branch equals the
calculator output and the manual branch returns the supplied 33. -/
theorem C7_witness :
    resolveRefundAmount rdEx 33 ldEx = computeRefundAmount rdEx ldEx ∧
      resolveRefundAmount rdManual 33 ldEx = Except.ok 33 :=
  ⟨((C7_refund_amount_source rdEx 33 ldEx).1 rfl).1,
    ((C7_refund_amount_source rdManual 33 ldEx).2 rfl).1⟩

/-- C5 counterexample: the GatewayResponse dataclass does not make the
error message mutually exclusive with success — conflictedResponse has
is_success true together with a non-null error, refuting the claim that
error is non-null exactly when is_success is false. -/
theorem C5_counterexample :
    ¬ ∀ g : GatewayResponse, (g.error ≠ none ↔ g.is_success = false) := by
  intro h
  have h2 := (h conflictedResponse).mp (by simp [conflictedResponse])
  simp [conflictedResponse] at h2

/-- C5 (amended): the GatewayResponse shape stores the success flag and
the optional error message as independent fields; every combination of
success flag and error presence is constructible, so the mutual
exclusivity is a convention on gateway implementations, not an invariant
enforced by the data type. -/
theorem C5_error_flag_independent :
    ∀ (b : Bool) (e : Option String), ∃ g : GatewayResponse,
      g.is_success = b ∧ g.error = e :=
  fun b e =>
    ⟨{ is_success := b, action_required := false, kind := "auth", amount := 0
     , currency := "USD", transaction_id := "t", error := e }, rfl, rfl⟩

/-- C10: the resolver behind the lines_data property runs at most once —
reading it on a PaymentData whose cache is empty invokes the resolver
exactly once and returns its value, and every later read returns the
identical cached value with zero further invocations and an unchanged
payment data. -/
theorem C10_lines_data_resolved_once (p : PaymentData)
    (hp : p.lines_data_cache = none) (v : PaymentLinesData)
    (p2 : PaymentData) (n : ℕ) (h : p.lines_data = (v, p2, n)) :
    n = 1 ∧ v = p.resolve_lines_data () ∧ p2.lines_data = (v, p2, 0) := by
  simp only [PaymentData.lines_data, hp] at h
  simp only [Prod.mk.injEq] at h
  obtain ⟨h1, h2, h3⟩ := h
  subst h1
  subst h2
  subst h3
  refine ⟨rfl, rfl, rfl⟩

/-- Concrete payment data for the C10 witness, with an empty cache and a
resolver returning empty lines. -/
def pW : PaymentData :=
  { gateway := "dummy"
  , amount := 10
  , currency := "USD"
  , billing := none
  , shipping := none
  , payment_id := 1
  , graphql_payment_id := "UGF5bWVudDox"
  , order_id := none
  , customer_ip_address := none
  , customer_email := "buyer at example dot com"
  , resolve_lines_data := fun _ => ⟨0, 0, []⟩ }

def vW : PaymentLinesData := ⟨0, 0, []⟩

def pW2 : PaymentData := { pW with lines_data_cache := some vW }

/-- Witness for C10 at the concrete payment data pW. -/
theorem C10_witness :
    pW.lines_data_cache = none ∧ pW.lines_data = (vW, pW2, 1) ∧
      pW2.lines_data = (vW, pW2, 0) :=
  ⟨rfl, rfl, (C10_lines_data_resolved_once pW rfl vW pW2 1 rfl).2.2⟩

theorem reconcile_none {s : ReconState} {aid : ℕ} {r : ReconResult}
    (hfind : s.findPending aid = none) :
    reconcile s aid r = Except.ok s := by
  simp only [reconcile, hfind]

theorem reconcile_ok_pending {s s2 : ReconState} {aid : ℕ} {r : ReconResult}
    {pa : PendingAction} (hfind : s.findPending aid = some pa)
    (h : reconcile s aid r = Except.ok s2) :
    ∃ tx2,
      Ledger.append (adoptReference (s.transactions pa.tx_id) r.psp_reference).1
          (toEvent pa r) = Except.ok tx2 ∧
      s2 = { transactions := fun i => if i = pa.tx_id then tx2 else s.transactions i
           , pending := s.pending.filter (fun q => q.action_id != aid)
           , retired := aid :: s.retired
           , anomalies := s.anomalies
               ++ (adoptReference (s.transactions pa.tx_id) r.psp_reference).2 } := by
  simp only [reconcile, hfind] at h
  cases happ : Ledger.append
      (adoptReference (s.transactions pa.tx_id) r.psp_reference).1
      (toEvent pa r) with
  | error e =>
    simp only [happ] at h
    exact Except.noConfusion h
  | ok tx2 =>
    simp only [happ] at h
    injection h with h
    exact ⟨tx2, rfl, h.symm⟩

theorem adoptReference_none {tx : Transaction} {rf : String}
    (h : tx.psp_reference = none) :
    adoptReference tx (some rf) = ({ tx with psp_reference := some rf }, []) := by
  obtain ⟨i, pr, c, t, ev⟩ := tx
  cases pr with
  | none => rfl
  | some old => exact Option.noConfusion h

theorem adoptReference_conflict {tx : Transaction} {old rf : String}
    (h : tx.psp_reference = some old) (hne : old ≠ rf) :
    adoptReference tx (some rf) = (tx, [⟨tx.id, old, rf⟩]) := by
  obtain ⟨i, pr, c, t, ev⟩ := tx
  cases pr with
  | none => exact Option.noConfusion h
  | some old2 =>
    injection h with h
    subst h
    simp [adoptReference, hne]

/-- C2: reconcile is idempotent per action id — a result for an action id
that is unknown or already finalized is discarded without mutating any
transaction, and a successful reconcile of a pending action id retires
the id and appends exactly one event, so replaying any further result for
the same id changes nothing. -/
theorem C2_reconcile_idempotent (s s2 : ReconState) (aid : ℕ)
    (r r2 : ReconResult) (h : reconcile s aid r = Except.ok s2) :
    reconcile s2 aid r2 = Except.ok s2 ∧
    (s.findPending aid = none → s2 = s) ∧
    (∀ pa, s.findPending aid = some pa →
      (s2.transactions pa.tx_id).events.length
        = (s.transactions pa.tx_id).events.length + 1) := by
  cases hfind : s.findPending aid with
  | none =>
    have hs : s2 = s := by
      rw [reconcile_none hfind] at h
      injection h with h
      exact h.symm
    subst hs
    exact ⟨reconcile_none hfind, fun _ => rfl,
      fun pa hpa => Option.noConfusion hpa⟩
  | some pa =>
    obtain ⟨tx2, happ, hs2⟩ := reconcile_ok_pending hfind h
    have hnone : s2.findPending aid = none := by
      rw [hs2]
      exact findPending_after_reconcile s aid pa tx2 _ _
    refine ⟨reconcile_none hnone, ?_, ?_⟩
    · intro hc
      exact Option.noConfusion hc
    · intro pa2 hpa2
      injection hpa2 with hpa2
      subst hpa2
      rw [hs2]
      show (if pa.tx_id = pa.tx_id then tx2 else s.transactions pa.tx_id).events.length
        = (s.transactions pa.tx_id).events.length + 1
      rw [if_pos rfl]
      obtain ⟨hev, _, _, _, _⟩ := append_ok_spec happ
      rw [hev, adoptReference_events]
      simp

/-- The pending registration of the C2 witness: action id 1 against
transaction 0, a charge. -/
def paW : PendingAction := ⟨1, 0, ActionType.charge⟩

def sW : ReconState :=
  { transactions := fun _ => tx0
  , pending := [paW]
  , retired := []
  , anomalies := [] }

def rW : ReconResult :=
  { success := true, amount := 50, psp_reference := none
  , message := none, timestamp := 5 }

def txW2 : Transaction :=
  { id := 0, psp_reference := none, currency := "USD"
  , totals := ⟨100, 50, 0, 0⟩
  , events := [⟨EventType.charge, 50, none, none, 5⟩] }

def sW2 : ReconState :=
  { transactions := fun i => if i = 0 then txW2 else sW.transactions i
  , pending := []
  , retired := [1]
  , anomalies := [] }

theorem appendW : Ledger.append tx0 (toEvent paW rW) = Except.ok txW2 := by
  have hinv : invariantHolds (applyEvent tx0.totals (toEvent paW rW)) := by
    constructor <;>
      norm_num [tx0, toEvent, paW, rW, applyEvent, ActionType.successEvent]
  simp only [Ledger.append, if_pos hinv]
  congr 1
  simp [tx0, txW2, toEvent, paW, rW, applyEvent, ActionType.successEvent]

theorem reconcileW : reconcile sW 1 rW = Except.ok sW2 := by
  have hfind : sW.findPending 1 = some paW := rfl
  have hadopt : adoptReference (sW.transactions paW.tx_id) rW.psp_reference
      = (tx0, []) := rfl
  simp only [reconcile, hfind, hadopt, appendW]
  rfl

/-- Witness for C2: a first reconcile of pending action id 1 appends one
charge event, and replaying the same result is a no-op. -/
theorem C2_witness :
    reconcile sW 1 rW = Except.ok sW2 ∧
      reconcile sW2 1 rW = Except.ok sW2 ∧
      (sW2.transactions paW.tx_id).events.length
        = (sW.transactions paW.tx_id).events.length + 1 :=
  ⟨reconcileW,
    (C2_reconcile_idempotent sW sW2 1 rW rW reconcileW).1,
    (C2_reconcile_idempotent sW sW2 1 rW rW reconcileW).2.2 paW rfl⟩

/-- C8: when a reconciled result carries a psp reference, a transaction
without one adopts it; a transaction holding a different reference keeps
its reference untouched and a ReferenceConflict anomaly is recorded, and
reconciliation never fails because of the conflict — the only error it
can surface is InvariantViolation from the ledger append. -/
theorem C8_reference_adoption (s : ReconState) (aid : ℕ) (r : ReconResult)
    (pa : PendingAction) (hfind : s.findPending aid = some pa) :
    (∀ e, reconcile s aid r = Except.error e →
      e = LedgerError.InvariantViolation) ∧
    (∀ s2 rf, reconcile s aid r = Except.ok s2 → r.psp_reference = some rf →
      ((s.transactions pa.tx_id).psp_reference = none →
        (s2.transactions pa.tx_id).psp_reference = some rf ∧
        s2.anomalies = s.anomalies) ∧
      (∀ old, (s.transactions pa.tx_id).psp_reference = some old → old ≠ rf →
        (s2.transactions pa.tx_id).psp_reference = some old ∧
        s2.anomalies = s.anomalies
          ++ [⟨(s.transactions pa.tx_id).id, old, rf⟩])) := by
  constructor
  · intro e _
    cases e
    rfl
  · intro s2 rf hok href
    obtain ⟨tx2, happ, hs2⟩ := reconcile_ok_pending hfind hok
    constructor
    · intro hnone
      rw [href, adoptReference_none hnone] at happ hs2
      obtain ⟨_, _, _, hpsp, _⟩ := append_ok_spec happ
      subst hs2
      refine ⟨?_, by simp⟩
      show (if pa.tx_id = pa.tx_id then tx2 else s.transactions pa.tx_id).psp_reference
        = some rf
      rw [if_pos rfl, hpsp]
    · intro old hold hne
      rw [href, adoptReference_conflict hold hne] at happ hs2
      obtain ⟨_, _, _, hpsp, _⟩ := append_ok_spec happ
      subst hs2
      refine ⟨?_, rfl⟩
      show (if pa.tx_id = pa.tx_id then tx2 else s.transactions pa.tx_id).psp_reference
        = some old
      rw [if_pos rfl, hpsp, hold]

/-- Transaction for the C8 witness: already carries psp reference A. -/
def txC : Transaction :=
  { id := 3, psp_reference := some "psp-A", currency := "USD"
  , totals := ⟨100, 50, 0, 0⟩, events := [] }

def paC : PendingAction := ⟨2, 3, ActionType.refund⟩

def sC : ReconState :=
  { transactions := fun _ => txC
  , pending := [paC]
  , retired := []
  , anomalies := [] }

/-- A successful refund result rotating the gateway reference to B. -/
def rC : ReconResult :=
  { success := true, amount := 20, psp_reference := some "psp-B"
  , message := none, timestamp := 9 }

def anomC : Anomaly := ⟨3, "psp-A", "psp-B"⟩

def txC2 : Transaction :=
  { id := 3, psp_reference := some "psp-A", currency := "USD"
  , totals := ⟨100, 50, 20, 0⟩
  , events := [⟨EventType.refund, 20, some "psp-B", none, 9⟩] }

def sC2 : ReconState :=
  { transactions := fun i => if i = 3 then txC2 else sC.transactions i
  , pending := []
  , retired := [2]
  , anomalies := [anomC] }

theorem adoptC : adoptReference (sC.transactions paC.tx_id) rC.psp_reference
    = (txC, [anomC]) := by
  show adoptReference txC (some "psp-B") = (txC, [anomC])
  rw [@adoptReference_conflict txC "psp-A" "psp-B" rfl (by decide)]
  rfl

theorem appendC : Ledger.append txC (toEvent paC rC) = Except.ok txC2 := by
  have hinv : invariantHolds (applyEvent txC.totals (toEvent paC rC)) := by
    constructor <;>
      norm_num [txC, toEvent, paC, rC, applyEvent, ActionType.successEvent]
  simp only [Ledger.append, if_pos hinv]
  congr 1
  simp [txC, txC2, toEvent, paC, rC, applyEvent, ActionType.successEvent]

theorem reconcileC : reconcile sC 2 rC = Except.ok sC2 := by
  have hfind : sC.findPending 2 = some paC := rfl
  simp only [reconcile, hfind, adoptC, appendC]
  rfl

/-- Witness for C8: reconciling a result whose reference B conflicts with
the stored reference A keeps A on the transaction and records the
conflict anomaly, with the reconcile succeeding. -/
theorem C8_witness :
    reconcile sC 2 rC = Except.ok sC2 ∧
      (sC2.transactions paC.tx_id).psp_reference = some "psp-A" ∧
      sC2.anomalies = sC.anomalies
        ++ [⟨(sC.transactions paC.tx_id).id, "psp-A", "psp-B"⟩] :=
  ⟨reconcileC,
    (((C8_reference_adoption sC 2 rC paC rfl).2 sC2 "psp-B" reconcileC rfl).2
      "psp-A" rfl (by decide)).1,
    (((C8_reference_adoption sC 2 rC paC rfl).2 sC2 "psp-B" reconcileC rfl).2
      "psp-A" rfl (by decide)).2⟩

end Saleor
